import Mathlib

/-!
# Verification of the `egui_extras` table layout / row-virtualization engine

Shallow embedding of `src/egui_extras/src/table.rs` (TableBuilder, Table,
TableBody, TableRow) together with proofs about the row-virtualization
algorithm, striping, column-width consumption and lifecycle finalization.

`f32` scalar arithmetic of the source is modelled over `ℚ` (exact rational
arithmetic); `as usize` casts of non-negative floats are `Int.toNat` of the
floor/ceil, matching Rust saturating float-to-int casts on the values reached
here.
-/

namespace EguiTable

/-- Input state of a call to `TableBody::rows` (table.rs lines 207-257):
uniform row `height`, total row count `rows`, the layout cursor y at entry
(`self.layout.current_y()`), and the viewport top/bottom captured at body
creation (`self.start_y`, `self.end_y`). -/
structure RowsInput where
  height : ℚ
  rows : ℕ
  cursorY : ℚ
  startY : ℚ
  endY : ℚ
deriving DecidableEq

/-- Source line `let delta = self.layout.current_y() - self.start_y;` (table.rs line 208). -/
def delta (inp : RowsInput) : ℚ :=
  inp.cursorY - inp.startY

/-- Source `start = (-delta / height).floor() as usize` when `delta < 0.0`, else `0`
(table.rs lines 209-212). -/
def startIdx (inp : RowsInput) : ℕ :=
  if delta inp < 0 then (Int.floor (-(delta inp) / inp.height)).toNat else 0

/-- Source `let max_height = self.end_y - self.start_y; let count = (max_height / height).ceil() as usize;`
(table.rs lines 226-227). -/
def visCount (inp : RowsInput) : ℕ :=
  (Int.ceil ((inp.endY - inp.startY) / inp.height)).toNat

/-- Source `let end = cmp::min(start + count, rows);` (table.rs line 228). -/
def endIdx (inp : RowsInput) : ℕ :=
  min (startIdx inp + visCount inp) inp.rows

/-- One emitted `TableRow` as observed from outside: the row index passed to
the caller callback (`none` for the synthetic filler rows, which are built
internally and never handed to the callback), the row height, the `striped`
flag and the `widths` clone handed to the row. -/
structure ERow where
  index : Option ℕ
  height : ℚ
  striped : Bool
  widths : List ℚ
deriving DecidableEq

/-- The filler row emitted before the real rows when `delta < 0.0`:
a single `TableRow` with `height: start as f32 * height`, `striped: false`,
and a clone of the body widths (table.rs lines 211-224). -/
def fillerAbove (inp : RowsInput) (widths : List ℚ) : List ERow :=
  if delta inp < 0 then
    [⟨none, (startIdx inp : ℚ) * inp.height, false, widths⟩]
  else []

/-- The iteration sequence of `for idx in start..end` (table.rs line 230). -/
def realIndices (inp : RowsInput) : List ℕ :=
  List.range' (startIdx inp) (endIdx inp - startIdx inp)

/-- The real rows handed to the caller callback: one per index in
`start..end`, each with the uniform height, `striped: self.striped && idx % 2 == 0`,
and a clone of the body widths (table.rs lines 230-242). -/
def realRows (inp : RowsInput) (striped : Bool) (widths : List ℚ) : List ERow :=
  (realIndices inp).map fun i => ⟨some i, inp.height, striped && decide (i % 2 = 0), widths⟩

/-- The filler row emitted after the real rows when `rows - end > 0`:
a single `TableRow` with `height: (rows - end) as f32 * height` and
`striped: false` (table.rs lines 244-256). -/
def fillerBelow (inp : RowsInput) (widths : List ℚ) : List ERow :=
  if 0 < inp.rows - endIdx inp then
    [⟨none, ((inp.rows - endIdx inp : ℕ) : ℚ) * inp.height, false, widths⟩]
  else []

/-- The full sequence of `TableRow`s constructed by one call to
`TableBody::rows` with the body's `striped` flag and `widths`, in emission
order: optional filler above, the real rows, optional filler below. -/
def rowsEmit (inp : RowsInput) (striped : Bool) (widths : List ℚ) : List ERow :=
  fillerAbove inp widths ++ realRows inp striped widths ++ fillerBelow inp widths

/-- Total height of a list of emitted rows. -/
def totalHeight (l : List ERow) : ℚ :=
  (l.map ERow.height).sum

/-- Method `TableRow::_col` (table.rs lines 302-330) as seen through the row's
`widths` field: `assert!(!self.widths.is_empty(), ...)` aborts when the
remaining-widths list is empty (modelled as `none`); otherwise
`self.widths.remove(0)` pops the front width, which becomes the cell width,
and the rest is the row state after the call. -/
def colStep (widths : List ℚ) : Option (ℚ × List ℚ) :=
  match widths with
  | [] => none
  | w :: rest => some (w, rest)

/-- Iterated version: `n` successive `col`/`col_clip` calls on a row whose remaining widths are
`widths`: `none` as soon as one call hits the assertion. -/
def colCalls : ℕ → List ℚ → Option (List ℚ)
  | 0, widths => some widths
  | n + 1, widths =>
    match colStep widths with
    | none => none
    | some (_, rest) => colCalls n rest

/-- The fields of `TableBody` that `TableBody::row` reads and writes
(table.rs lines 194-201, 260-276): the `striped` flag, the running call
counter `row_nr`, and the stored `widths`. -/
structure BodyState where
  striped : Bool
  row_nr : ℕ
  widths : List ℚ
deriving DecidableEq

/-- One call to `TableBody::row` (table.rs lines 260-276): builds a
`TableRow` with `striped: self.striped && self.row_nr % 2 == 0`, a clone of
the body widths and the given height, then increments `row_nr`. -/
def rowCall (s : BodyState) (height : ℚ) : ERow × BodyState :=
  (⟨none, height, s.striped && decide (s.row_nr % 2 = 0), s.widths⟩,
   ⟨s.striped, s.row_nr + 1, s.widths⟩)

/-- The rows produced by successive `TableBody::row` calls with the given
heights, in call order. -/
def rowCallSeq (s : BodyState) : List ℚ → List ERow
  | [] => []
  | h :: hs =>
    let (r, s2) := rowCall s h
    r :: rowCallSeq s2 hs

/-- The spacing values read from `self.ui.spacing()` in `TableBuilder`:
`item_spacing.x` and `scroll_bar_width`. -/
structure UiSpacing where
  itemSpacingX : ℚ
  scrollBarWidth : ℚ
deriving DecidableEq

/-- The width budget `TableBuilder::header` hands to `self.sizing.into_lengths`
(table.rs lines 101-110): the available width minus `item_spacing.x` minus
the scroll-bar width when the `scroll` flag is set (else minus 0). -/
def headerWidthBudget (availWidth : ℚ) (sp : UiSpacing) (scroll : Bool) : ℚ :=
  availWidth - sp.itemSpacingX - (if scroll then sp.scrollBarWidth else 0)

/-- The width budget the no-header `TableBuilder::body` hands to
`self.sizing.into_lengths` (table.rs lines 141-144): the raw
`available_rect_before_wrap().width()` with nothing subtracted. -/
def bodyWidthBudget (availWidth : ℚ) (sp : UiSpacing) (scroll : Bool) : ℚ :=
  availWidth

/-- The `Table` value built at the end of `TableBuilder::header`
(table.rs lines 128-133): it stores the resolved widths and the scroll and
striped flags unchanged. -/
structure TableS where
  widths : List ℚ
  scroll : Bool
  striped : Bool
deriving DecidableEq

/-- Method `TableBuilder::header` (table.rs lines 100-134) as a data-flow function
on the resolved widths `ws` (the result of `sizing.into_lengths`): the header
`TableRow` receives `widths.clone()` with `striped: false`, and the returned
`Table` stores the same `ws`. -/
def headerBuild (ws : List ℚ) (scroll striped : Bool) (height : ℚ) :
    ERow × TableS :=
  (⟨none, height, false, ws⟩, ⟨ws, scroll, striped⟩)

/-- Method `Table::body` (table.rs lines 165-189): the `TableBody` is created with
the `Table`'s widths and striped flag and a fresh `row_nr` of 0. -/
def tableBody (t : TableS) : BodyState :=
  ⟨t.striped, 0, t.widths⟩

/-- Layout events relevant to finalization: a cell placement
(`StripLayout::add` and friends), the end-of-row cursor move
(`StripLayout::end_line`) and the final rect commit (`set_rect`). -/
inductive LEvent where
  | cellAdd : LEvent
  | endLine : LEvent
  | setRect : LEvent
deriving DecidableEq

/-- The layout events of one `TableRow` scope: whatever events the row body
emitted (possibly cut short by an early exit), then the one `end_line` run by
`impl Drop for TableRow` (table.rs lines 343-347) when the row value goes out
of scope. -/
def rowScope (bodyEvents : List LEvent) : List LEvent :=
  bodyEvents ++ [LEvent.endLine]

/-- The layout events of one `TableBody` scope: whatever events the body
callback emitted (possibly cut short by an early exit), then the one
`set_rect` run by `impl Drop for TableBody` (table.rs lines 279-283) when the
body value goes out of scope. -/
def bodyScope (callbackEvents : List LEvent) : List LEvent :=
  callbackEvents ++ [LEvent.setRect]

/-- Method `TableBody::rows` with the internal `col` calls of the two synthetic
filler rows threaded through `colStep` (table.rs lines 215-223 and 247-255:
each filler row makes one `.col(|_| ())` call, which asserts that the widths
list is non-empty): `none` models the assertion abort. The caller callback is
taken to make no `col` calls of its own. -/
def rowsRun (inp : RowsInput) (striped : Bool) (widths : List ℚ) :
    Option (List ERow) :=
  if delta inp < 0 then
    match colStep widths with
    | none => none
    | some _ =>
      if 0 < inp.rows - endIdx inp then
        match colStep widths with
        | none => none
        | some _ => some (rowsEmit inp striped widths)
      else some (rowsEmit inp striped widths)
  else
    if 0 < inp.rows - endIdx inp then
      match colStep widths with
      | none => none
      | some _ => some (rowsEmit inp striped widths)
    else some (rowsEmit inp striped widths)

/-- Concrete `rows` call scrolled past the whole content: height 1, zero
rows, cursor at y = 0 with viewport top `start_y = 1` (so `delta = -1`). -/
def exPastEnd : RowsInput :=
  ⟨1, 0, 0, 1, 1⟩

/-- Concrete `rows` call with no scrolling: height 20, 100000 rows, cursor at
the viewport top, viewport 400 tall. -/
def exZeroScroll : RowsInput :=
  ⟨20, 100000, 0, 0, 400⟩

/-- Concrete `rows` call scrolled down by 205 px: height 20, 100 rows, cursor
205 px above the viewport top, viewport 400 tall. -/
def exScroll205 : RowsInput :=
  ⟨20, 100, -205, 0, 400⟩

/-- Concrete spacing used in counterexamples: `item_spacing.x = 5`,
`scroll_bar_width = 10`. -/
def exSpacing : UiSpacing :=
  ⟨5, 10⟩

end EguiTable

namespace EguiTable

/-! ## Helper lemmas shared by several claims -/

lemma endIdx_le_rows (inp : RowsInput) : endIdx inp ≤ inp.rows :=
  min_le_right _ _

lemma startIdx_le_endIdx (inp : RowsInput) (h : startIdx inp ≤ inp.rows) :
    startIdx inp ≤ endIdx inp :=
  le_min (Nat.le_add_right _ _) h

lemma sum_heights_fillerAbove (inp : RowsInput) (ws : List ℚ) :
    ((fillerAbove inp ws).map ERow.height).sum = (startIdx inp : ℚ) * inp.height := by
  by_cases hd : delta inp < 0
  · simp [fillerAbove, hd]
  · simp [fillerAbove, hd, startIdx]

lemma sum_heights_realRows (inp : RowsInput) (strp : Bool) (ws : List ℚ) :
    ((realRows inp strp ws).map ERow.height).sum
      = ((endIdx inp - startIdx inp : ℕ) : ℚ) * inp.height := by
  simp only [realRows, realIndices, List.map_map]
  have : (ERow.height ∘ fun i : ℕ =>
      (⟨some i, inp.height, strp && decide (i % 2 = 0), ws⟩ : ERow))
      = fun _ : ℕ => inp.height := rfl
  rw [this]
  rw [List.map_const', List.sum_replicate, List.length_range', nsmul_eq_mul]

lemma sum_heights_fillerBelow (inp : RowsInput) (ws : List ℚ) :
    ((fillerBelow inp ws).map ERow.height).sum
      = ((inp.rows - endIdx inp : ℕ) : ℚ) * inp.height := by
  by_cases hb : 0 < inp.rows - endIdx inp
  · simp [fillerBelow, hb]
  · have h0 : inp.rows - endIdx inp = 0 := by omega
    simp [fillerBelow, hb, h0]

/-! ## C1: total height invariant -/

/-- C1 (counterexample): with row height 1, zero rows, and the cursor one
pixel above the stored viewport top, `TableBody::rows` emits a filler-above
row of height `start × h = 1`, so the total emitted height is 1, not
`N × h = 0`. The total-height invariant fails as universally stated. -/
theorem rows_total_height_cex :
    totalHeight (rowsEmit exPastEnd false [30])
      ≠ (exPastEnd.rows : ℚ) * exPastEnd.height := by
  norm_num [exPastEnd, totalHeight, rowsEmit, fillerAbove, fillerBelow, realRows,
    realIndices, endIdx, startIdx, visCount, delta]
  all_goals simp
  all_goals norm_num

/-- C1 (amended): for every call to `TableBody::rows` whose computed first
visible index `start` does not exceed the row count `N` (true whenever the
scroll offset lies within the content), the filler-above height plus the
summed heights of the real rows plus the filler-below height equals exactly
`N × h`. -/
theorem rows_total_height (inp : RowsInput) (striped : Bool) (ws : List ℚ)
    (h : startIdx inp ≤ inp.rows) :
    totalHeight (rowsEmit inp striped ws) = (inp.rows : ℚ) * inp.height := by
  have h1 := startIdx_le_endIdx inp h
  have h2 := endIdx_le_rows inp
  simp only [totalHeight, rowsEmit, List.map_append, List.sum_append,
    sum_heights_fillerAbove, sum_heights_realRows, sum_heights_fillerBelow]
  push_cast [Nat.cast_sub h1, Nat.cast_sub h2]
  ring

/-- Witness for the amended C1 at the unscrolled 100000-row table. -/
theorem rows_total_height_witness :
    startIdx exZeroScroll ≤ exZeroScroll.rows ∧
    totalHeight (rowsEmit exZeroScroll false [30])
      = (exZeroScroll.rows : ℚ) * exZeroScroll.height := by
  have hs : startIdx exZeroScroll ≤ exZeroScroll.rows := by
    norm_num [startIdx, delta, exZeroScroll]
  exact ⟨hs, rows_total_height exZeroScroll false [30] hs⟩

/-! ## C2: filler-above / start index -/

/-- C2: in `TableBody::rows` with positive row height, if
`delta = cursor_y - start_y` is negative then the first visible index is
`start = floor(-delta / h)` and exactly one filler row of height `start × h`
(striped `false`, widths clone) is emitted before the real rows; if
`delta ≥ 0` then `start = 0` and no filler-above is emitted. -/
theorem rows_filler_above_spec (inp : RowsInput) (ws : List ℚ)
    (hh : 0 < inp.height) :
    (delta inp < 0 →
      (startIdx inp : ℤ) = Int.floor (-(delta inp) / inp.height) ∧
      fillerAbove inp ws = [⟨none, (startIdx inp : ℚ) * inp.height, false, ws⟩]) ∧
    (0 ≤ delta inp → startIdx inp = 0 ∧ fillerAbove inp ws = []) := by
  constructor
  · intro hd
    have hnn : 0 ≤ Int.floor (-(delta inp) / inp.height) :=
      Int.floor_nonneg.mpr (div_nonneg (by linarith) hh.le)
    constructor
    · simp [startIdx, hd, Int.toNat_of_nonneg hnn]
    · simp [fillerAbove, hd]
  · intro hd
    have hnd : ¬ delta inp < 0 := not_lt.mpr hd
    exact ⟨by simp [startIdx, hnd], by simp [fillerAbove, hnd]⟩

/-- Witness for C2 at the body scrolled down by 205 px with h = 20:
`start = floor(205/20) = 10` and the filler-above height is `10 × 20 = 200`. -/
theorem rows_filler_above_spec_witness :
    startIdx exScroll205 = 10 ∧
    fillerAbove exScroll205 [30] = [⟨none, 200, false, [30]⟩] := by
  have h := (rows_filler_above_spec exScroll205 [30]
      (by norm_num [exScroll205])).1 (by norm_num [delta, exScroll205])
  have hfl : Int.floor (-(delta exScroll205) / exScroll205.height) = 10 := by
    norm_num [delta, exScroll205]
  have hs : startIdx exScroll205 = 10 := by
    have h1 := h.1
    rw [hfl] at h1
    exact_mod_cast h1
  refine ⟨hs, ?_⟩
  rw [h.2, hs]
  norm_num [exScroll205]

/-! ## C3: end index / filler-below -/

/-- C3: in `TableBody::rows` with positive row height and a non-degenerate
viewport, the end of the rendered window is
`end = min(start + ceil((end_y - start_y) / h), N)`; when `end < N` exactly
one filler row of height `(N - end) × h` is emitted after the real rows, and
none when `end = N`. -/
theorem rows_end_filler_below_spec (inp : RowsInput) (ws : List ℚ)
    (hh : 0 < inp.height) (hv : inp.startY ≤ inp.endY) :
    (endIdx inp : ℤ) =
      min ((startIdx inp : ℤ) + Int.ceil ((inp.endY - inp.startY) / inp.height))
        (inp.rows : ℤ) ∧
    (endIdx inp < inp.rows →
      fillerBelow inp ws
        = [⟨none, ((inp.rows - endIdx inp : ℕ) : ℚ) * inp.height, false, ws⟩]) ∧
    (endIdx inp = inp.rows → fillerBelow inp ws = []) := by
  have hnn : 0 ≤ Int.ceil ((inp.endY - inp.startY) / inp.height) :=
    Int.ceil_nonneg (div_nonneg (by linarith) hh.le)
  refine ⟨?_, ?_, ?_⟩
  · unfold endIdx visCount
    push_cast
    rw [Int.toNat_of_nonneg hnn]
  · intro hlt
    have hpos : 0 < inp.rows - endIdx inp := by omega
    simp [fillerBelow, hpos]
  · intro heq
    have h0 : ¬ 0 < inp.rows - endIdx inp := by omega
    simp [fillerBelow, h0]

/-- Witness for C3 at the unscrolled 100000-row table with h = 20 and a
400 px viewport: the window is rows [0, 20), there is no filler-above, and
the filler-below height is `99980 × 20`. -/
theorem rows_end_filler_below_spec_witness :
    endIdx exZeroScroll = 20 ∧
    fillerBelow exZeroScroll [30] = [⟨none, 99980 * 20, false, [30]⟩] ∧
    fillerAbove exZeroScroll [30] = [] ∧
    realIndices exZeroScroll = List.range' 0 20 := by
  have hth := rows_end_filler_below_spec exZeroScroll [30]
    (by norm_num [exZeroScroll]) (by norm_num [exZeroScroll])
  have hs : startIdx exZeroScroll = 0 := by
    norm_num [startIdx, delta, exZeroScroll]
  have hcl : Int.ceil ((exZeroScroll.endY - exZeroScroll.startY) / exZeroScroll.height)
      = 20 := by
    norm_num [exZeroScroll]
  have he : endIdx exZeroScroll = 20 := by
    have h1 := hth.1
    rw [hs, hcl] at h1
    norm_num at h1
    exact_mod_cast h1
  have hfb := hth.2.1 (by rw [he]; norm_num [exZeroScroll])
  refine ⟨he, ?_, ?_, ?_⟩
  · rw [hfb, he]
    norm_num [exZeroScroll]
  · norm_num [fillerAbove, delta, exZeroScroll]
  · rw [realIndices, hs, he]

/-! ## C4: column-count contract -/

/-- C4: a `col`/`col_clip` call fails with the assertion
`"Tried using more table columns then available."` if and only if the row's
remaining-widths list is already empty; and any number of calls not exceeding
the configured column count succeeds (fewer calls than columns are silently
accepted). -/
theorem col_contract :
    (∀ ws : List ℚ, colStep ws = none ↔ ws = []) ∧
    (∀ (n : ℕ) (ws : List ℚ), n ≤ ws.length → (colCalls n ws).isSome = true) := by
  constructor
  · intro ws
    cases ws <;> simp [colStep]
  · intro n
    induction n with
    | zero => intro ws _; simp [colCalls]
    | succ n ih =>
      intro ws hn
      cases ws with
      | nil => simp at hn
      | cons w rest =>
        simp only [colCalls, colStep]
        exact ih rest (by simpa using hn)

/-- Witness for C4: the assertion fires on an empty widths list, and two
calls on a three-column row succeed. -/
theorem col_contract_witness :
    colStep ([] : List ℚ) = none ∧ (colCalls 2 [10, 20, 30]).isSome = true :=
  ⟨(col_contract.1 []).mpr rfl, col_contract.2 2 [10, 20, 30] (by norm_num)⟩

/-! ## C5: width budget handed to the sizing resolver -/

/-- C5 (counterexample): with available width 100, item spacing 5 and
scroll-bar width 10, the no-header `TableBuilder::body` path hands the sizing
resolver the full 100 even though scrolling is enabled — it does not subtract
the scroll-bar width (nor the item spacing, unlike `TableBuilder::header`). -/
theorem body_budget_cex :
    ¬ (bodyWidthBudget 100 exSpacing true = 100 - exSpacing.scrollBarWidth) := by
  norm_num [bodyWidthBudget, exSpacing]

/-- C5 (amended): only `TableBuilder::header` computes the resolver budget
net of the scroll-bar reservation (and item spacing) when scrolling is
enabled; the no-header `TableBuilder::body` hands the resolver the raw
available width with nothing subtracted, whatever the scroll flag. -/
theorem width_budget_amended (availWidth : ℚ) (sp : UiSpacing) :
    headerWidthBudget availWidth sp true
      = availWidth - sp.itemSpacingX - sp.scrollBarWidth ∧
    headerWidthBudget availWidth sp false = availWidth - sp.itemSpacingX ∧
    (∀ scroll : Bool, bodyWidthBudget availWidth sp scroll = availWidth) := by
  refine ⟨?_, ?_, fun _ => rfl⟩
  · simp [headerWidthBudget]
  · simp [headerWidthBudget]

/-! ## C6: striping alternation -/

lemma mem_fillerAbove {inp : RowsInput} {ws : List ℚ} {r : ERow}
    (h : r ∈ fillerAbove inp ws) :
    r = ⟨none, (startIdx inp : ℚ) * inp.height, false, ws⟩ := by
  unfold fillerAbove at h
  split at h
  · simpa using h
  · simp at h

lemma mem_fillerBelow {inp : RowsInput} {ws : List ℚ} {r : ERow}
    (h : r ∈ fillerBelow inp ws) :
    r = ⟨none, ((inp.rows - endIdx inp : ℕ) : ℚ) * inp.height, false, ws⟩ := by
  unfold fillerBelow at h
  split at h
  · simpa using h
  · simp at h

lemma mem_realRows {inp : RowsInput} {strp : Bool} {ws : List ℚ} {r : ERow}
    (h : r ∈ realRows inp strp ws) :
    ∃ i ∈ realIndices inp,
      r = ⟨some i, inp.height, strp && decide (i % 2 = 0), ws⟩ := by
  rw [realRows, List.mem_map] at h
  obtain ⟨i, hi, hr⟩ := h
  exact ⟨i, hi, hr.symm⟩

lemma rowCallSeq_getD_striped (s : BodyState) (heights : List ℚ) (k : ℕ)
    (hk : k < heights.length) :
    ((rowCallSeq s heights).getD k ⟨none, 0, false, []⟩).striped
      = (s.striped && decide ((s.row_nr + k) % 2 = 0)) := by
  induction heights generalizing s k with
  | nil => simp at hk
  | cons h hs ih =>
    cases k with
    | zero => simp [rowCallSeq, rowCall]
    | succ k =>
      have hstep := ih ⟨s.striped, s.row_nr + 1, s.widths⟩ k (by simpa using hk)
      simp only [rowCallSeq, rowCall, List.getD_cons_succ] at hstep ⊢
      rw [hstep]
      have harith : s.row_nr + 1 + k = s.row_nr + (k + 1) := by omega
      rw [harith]

/-- C6: every row constructed by `TableBody::rows` carries
`striped = body.striped && index % 2 == 0` when it is a real row of index
`index`, and `striped = false` when it is a synthetic filler row (so with
striping disabled no row is ever striped, and stripes follow the absolute
row index independent of the skip offset); and the k-th call (0-indexed) to
`TableBody::row` on a fresh body carries
`striped = body.striped && k % 2 == 0`. -/
theorem striping_alternation :
    (∀ (inp : RowsInput) (strp : Bool) (ws : List ℚ) (r : ERow),
      r ∈ rowsEmit inp strp ws →
      r.striped = (strp && match r.index with
        | some i => decide (i % 2 = 0)
        | none => false)) ∧
    (∀ (s : BodyState) (heights : List ℚ) (k : ℕ), k < heights.length →
      s.row_nr = 0 →
      ((rowCallSeq s heights).getD k ⟨none, 0, false, []⟩).striped
        = (s.striped && decide (k % 2 = 0))) := by
  constructor
  · intro inp strp ws r hr
    rw [rowsEmit, List.append_assoc, List.mem_append, List.mem_append] at hr
    rcases hr with h | h | h
    · rw [mem_fillerAbove h]
      simp
    · obtain ⟨i, _, hr⟩ := mem_realRows h
      rw [hr]
    · rw [mem_fillerBelow h]
      simp
  · intro s heights k hk h0
    rw [rowCallSeq_getD_striped s heights k hk, h0, Nat.zero_add]

/-- Witness for C6: on the unscrolled table with striping enabled, the real
row of index 0 is striped; and the third `TableBody::row` call (k = 2) on a
fresh striped body is striped. -/
theorem striping_alternation_witness :
    (⟨some 0, 20, true, [30]⟩ : ERow).striped = true ∧
    ((rowCallSeq ⟨true, 0, [30]⟩ [10, 20, 30]).getD 2 ⟨none, 0, false, []⟩).striped
      = true := by
  constructor
  · have hs : startIdx exZeroScroll = 0 := by
      norm_num [startIdx, delta, exZeroScroll]
    have hmem : (⟨some 0, 20, true, [30]⟩ : ERow) ∈ rowsEmit exZeroScroll true [30] := by
      rw [rowsEmit, List.append_assoc, List.mem_append]
      refine Or.inr (List.mem_append.mpr (Or.inl ?_))
      rw [realRows, List.mem_map]
      refine ⟨0, ?_, by norm_num [exZeroScroll]⟩
      rw [realIndices, hs]
      rw [List.mem_range'_1]
      have hc : Int.ceil ((exZeroScroll.endY - exZeroScroll.startY) / exZeroScroll.height)
          = 20 := by norm_num [exZeroScroll]
      have hv : visCount exZeroScroll = 20 := by rw [visCount, hc]; rfl
      have he : endIdx exZeroScroll = 20 := by
        rw [endIdx, hs, hv]
        norm_num [exZeroScroll]
      omega
    have h := striping_alternation.1 exZeroScroll true [30] _ hmem
    simpa using h
  · rw [striping_alternation.2 ⟨true, 0, [30]⟩ [10, 20, 30] 2 (by norm_num) rfl]
    decide

/-! ## C7: callback index window -/

/-- C7: the per-row callback of `TableBody::rows` is invoked exactly once for
each index in `[start, end)`, in strictly ascending order, every invoked
index is below the row count, and no index outside `[start, end)` is ever
passed to the callback. -/
theorem rows_callback_index_window (inp : RowsInput) :
    List.Chain' (· < ·) (realIndices inp) ∧
    (∀ i, i ∈ realIndices inp ↔ startIdx inp ≤ i ∧ i < endIdx inp) ∧
    (∀ i, i ∈ realIndices inp → (realIndices inp).count i = 1 ∧ i < inp.rows) := by
  have hmem : ∀ i, i ∈ realIndices inp ↔ startIdx inp ≤ i ∧ i < endIdx inp := by
    intro i
    rw [realIndices, List.mem_range'_1]
    omega
  refine ⟨?_, hmem, ?_⟩
  · rw [realIndices]
    exact (List.pairwise_lt_range' _ _).chain'
  · intro i hi
    have hnd : (realIndices inp).Nodup := by
      rw [realIndices]; exact List.nodup_range' _ _
    have hb := (hmem i).mp hi
    have h2 := endIdx_le_rows inp
    exact ⟨List.count_eq_one_of_mem hnd hi, by omega⟩

/-- Witness for C7 at the 205-px-scrolled table: index 10 is passed exactly
once and is below the row count 100. -/
theorem rows_callback_index_window_witness :
    (realIndices exScroll205).count 10 = 1 ∧ 10 < exScroll205.rows := by
  have hth := rows_callback_index_window exScroll205
  have hs : startIdx exScroll205 = 10 := by
    norm_num [startIdx, delta, exScroll205]
    all_goals simp
  have hc : Int.ceil ((exScroll205.endY - exScroll205.startY) / exScroll205.height)
      = 20 := by norm_num [exScroll205]
  have hv : visCount exScroll205 = 20 := by rw [visCount, hc]; rfl
  have he : endIdx exScroll205 = 30 := by
    rw [endIdx, hs, hv]
    norm_num [exScroll205]
  exact hth.2.2 10 ((hth.2.1 10).mpr (by omega))

/-! ## C8: header-to-body width carry-over -/

lemma widths_rowsEmit {inp : RowsInput} {strp : Bool} {ws : List ℚ} {r : ERow}
    (h : r ∈ rowsEmit inp strp ws) : r.widths = ws := by
  rw [rowsEmit, List.append_assoc, List.mem_append, List.mem_append] at h
  rcases h with h | h | h
  · rw [mem_fillerAbove h]
  · obtain ⟨i, _, hr⟩ := mem_realRows h
    rw [hr]
  · rw [mem_fillerBelow h]

lemma widths_rowCallSeq (s : BodyState) (heights : List ℚ) :
    ∀ r ∈ rowCallSeq s heights, r.widths = s.widths := by
  induction heights generalizing s with
  | nil => intro r h; simp [rowCallSeq] at h
  | cons hh hs ih =>
    intro r h
    simp only [rowCallSeq, rowCall, List.mem_cons] at h
    rcases h with h | h
    · rw [h]
    · exact ih ⟨s.striped, s.row_nr + 1, s.widths⟩ r h

/-- C8: the widths resolved during `TableBuilder::header` are stored
unchanged in the returned `Table`, carried unchanged into the `TableBody`
built by `Table::body`, and every row subsequently emitted — through
`TableBody::rows` or `TableBody::row` — receives a copy of exactly that
sequence; nothing is re-resolved on the body path after a header. -/
theorem header_body_width_carry (ws : List ℚ) (scroll striped : Bool)
    (hh : ℚ) (inp : RowsInput) (heights : List ℚ) :
    (headerBuild ws scroll striped hh).1.widths = ws ∧
    (headerBuild ws scroll striped hh).2.widths = ws ∧
    (tableBody (headerBuild ws scroll striped hh).2).widths = ws ∧
    (∀ r ∈ rowsEmit inp (tableBody (headerBuild ws scroll striped hh).2).striped
        (tableBody (headerBuild ws scroll striped hh).2).widths,
      r.widths = ws) ∧
    (∀ r ∈ rowCallSeq (tableBody (headerBuild ws scroll striped hh).2) heights,
      r.widths = ws) := by
  refine ⟨rfl, rfl, rfl, ?_, ?_⟩
  · intro r hr
    exact widths_rowsEmit hr
  · intro r hr
    exact widths_rowCallSeq _ _ r hr

/-- Witness for C8: with resolved widths `[40, 60]`, the header row, the
`Table`, the `TableBody` and a concrete emitted row all carry `[40, 60]`. -/
theorem header_body_width_carry_witness :
    (headerBuild [40, 60] true true 20).2.widths = [40, 60] ∧
    (tableBody (headerBuild [40, 60] true true 20).2).widths = [40, 60] ∧
    ((rowCallSeq (tableBody (headerBuild [40, 60] true true 20).2) [10]).getD 0
      ⟨none, 0, false, []⟩).widths = [40, 60] := by
  have hth := header_body_width_carry [40, 60] true true 20 exZeroScroll [10]
  refine ⟨hth.2.1, hth.2.2.1, ?_⟩
  have hmem : (rowCallSeq (tableBody (headerBuild [40, 60] true true 20).2) [10]).getD 0
      ⟨none, 0, false, []⟩ ∈ rowCallSeq (tableBody (headerBuild [40, 60] true true 20).2) [10] := by
    simp [rowCallSeq, rowCall, tableBody, headerBuild]
  exact hth.2.2.2.2 _ hmem

/-! ## C9: finalization runs exactly once -/

/-- C9: whatever layout events a body callback or a row body emits before its
scope ends — including none at all, as after an early exit — the events of the
closed scope contain exactly one finalization event, and it is the last one:
`set_rect` for a `TableBody` (run by its `Drop`), `end_line` for a `TableRow`
(run by its `Drop`). The callback itself cannot emit the finalization event,
which is the stated hypothesis. -/
theorem finalization_exactly_once (bodyEvents rowEvents : List LEvent)
    (hb : LEvent.setRect ∉ bodyEvents) (hr : LEvent.endLine ∉ rowEvents) :
    (bodyScope bodyEvents).count LEvent.setRect = 1 ∧
    (bodyScope bodyEvents).getLast? = some LEvent.setRect ∧
    (rowScope rowEvents).count LEvent.endLine = 1 ∧
    (rowScope rowEvents).getLast? = some LEvent.endLine := by
  refine ⟨?_, ?_, ?_, ?_⟩
  · rw [bodyScope, List.count_append]
    rw [List.count_eq_zero.mpr hb]
    rfl
  · exact List.getLast?_concat _
  · rw [rowScope, List.count_append]
    rw [List.count_eq_zero.mpr hr]
    rfl
  · exact List.getLast?_concat _

/-- Witness for C9: a body whose callback placed one cell and then exited
(and a row that placed one cell) each finalize exactly once. -/
theorem finalization_exactly_once_witness :
    (bodyScope [LEvent.cellAdd]).count LEvent.setRect = 1 ∧
    (rowScope [LEvent.cellAdd]).count LEvent.endLine = 1 := by
  have h := finalization_exactly_once [LEvent.cellAdd] [LEvent.cellAdd]
    (by simp) (by simp)
  exact ⟨h.1, h.2.2.1⟩

/-! ## C10: zero columns abort on filler emission -/

/-- C10: with an empty configured-widths sequence, `TableBody::rows` hits the
column-overflow assertion as soon as it emits a synthetic filler row, because
the filler row makes one internal `col` call; in particular it aborts
whenever the body is scrolled above the viewport top (`start > 0`) or the row
count exceeds the last visible index (`end < N`). -/
theorem zero_columns_filler_abort (inp : RowsInput) (striped : Bool)
    (h : 0 < startIdx inp ∨ endIdx inp < inp.rows) :
    rowsRun inp striped [] = none := by
  by_cases hd : delta inp < 0
  · rw [rowsRun, if_pos hd]
    rfl
  · have hs : startIdx inp = 0 := by simp [startIdx, hd]
    have hlt : endIdx inp < inp.rows := by omega
    have hpos : 0 < inp.rows - endIdx inp := by omega
    rw [rowsRun, if_neg hd, if_pos hpos]
    rfl

/-- Witness for C10 at the 205-px-scrolled table with zero columns: the call
aborts (the filler-above row's internal `col` call fails the assertion). -/
theorem zero_columns_filler_abort_witness :
    rowsRun exScroll205 false [] = none := by
  apply zero_columns_filler_abort exScroll205 false
  left
  have hs : startIdx exScroll205 = 10 := by
    norm_num [startIdx, delta, exScroll205]
    all_goals simp
  omega

end EguiTable
